import Mathlib

/-!
# Verification of the Activity-Trending synchronization & similarity engine

Shallow embedding of the core logic of the repository:

* `src/App.tsx` — `getValidToken`, `handleSync`, `handleSegmentClick`
  (local-effort collection and merge), `similarActivities`;
* `src/services/stravaService.ts` — `fetchAllActivities`, `fetchSegmentEfforts`;
* `src/services/db.ts` — `clearDatabase` / `saveActivities` as atomic
  operations on the stored activity list.

Numbers that the program manipulates as JS floats are modelled as rationals
(`ℚ`); epoch timestamps as integers (`ℤ`, with `0`/`""` standing for the JS
falsy values the code tests for).  The floating-point haversine helper
`getDistanceFromLatLonInKm` is transcendental, so the similarity definitions
take the geographic distance function as an explicit parameter `geo`; every
theorem about them holds for an arbitrary such function, in particular for
the haversine distance.
-/

namespace ActivityTrending

/-! ## Data model (src/types.ts) -/

/-- `StravaSegment` (src/types.ts): only the fields the engine reads. -/
structure Segment where
  id : Nat
  name : String
  deriving DecidableEq, Repr

/-- `StravaSegmentEffort` (src/types.ts).  `start_date` is a string in the
source that the code tests for truthiness (`match.start_date || …`), so it is
modelled as an optional timestamp, `none` standing for absent/empty. -/
structure SegmentEffort where
  id : Nat
  elapsed_time : ℚ
  start_date : Option Int
  segment : Segment
  deriving DecidableEq, Repr

/-- `StravaActivity` (src/types.ts): the fields read by sync, merge and
similarity matching.  `start_latlng` is optional (and a JS array of length
other than two is treated by the code the same way as an absent one);
`segment_efforts` is present only after a detail fetch. -/
structure Activity where
  id : Nat
  name : String
  distance : ℚ
  total_elevation_gain : ℚ
  type : String
  start_date : Int
  start_latlng : Option (ℚ × ℚ)
  segment_efforts : Option (List SegmentEffort)
  deriving DecidableEq, Repr

/-! ## TokenManager (src/App.tsx, `getValidToken` / `updateAuth`) -/

/-- The credential state held in React state / localStorage
(`clientId`, `clientSecret`, `accessToken`, `refreshToken`, `expiresAt`).
Empty strings and `expiresAt = 0` are the falsy "absent" values the code
tests for. -/
structure AuthState where
  clientId : String
  clientSecret : String
  accessToken : String
  refreshToken : String
  expiresAt : Int
  deriving DecidableEq, Repr

/-- `StravaAuthResponse` (src/types.ts), the fields `updateAuth` consumes. -/
structure AuthResponse where
  access_token : String
  refresh_token : String
  expires_at : Int
  deriving DecidableEq, Repr

/-- `updateAuth` (src/App.tsx): a successful auth/refresh response replaces
the stored triple. -/
def updateAuth (s : AuthState) (r : AuthResponse) : AuthState :=
  { s with
    accessToken := r.access_token
    refreshToken := r.refresh_token
    expiresAt := r.expires_at }

/-- Result of one `getValidToken` call: the returned token or thrown error
message, the credential state afterwards, and whether the
`refreshStravaToken` network call was issued. -/
structure TokenStep where
  result : Except String String
  state : AuthState
  refreshCalled : Bool
  deriving Repr

/-- `getValidToken` (src/App.tsx).  The outcome of the (only possible)
`refreshStravaToken` network call is passed in as `refreshResp`
(`none` = the call threw). -/
def getValidToken (s : AuthState) (now : Int) (refreshResp : Option AuthResponse) :
    TokenStep :=
  if s.expiresAt ≠ 0 ∧ now > s.expiresAt - 60 then
    if s.refreshToken = "" ∨ s.clientId = "" ∨ s.clientSecret = "" then
      if s.accessToken ≠ "" then
        ⟨.ok s.accessToken, s, false⟩
      else
        ⟨.error "Cannot refresh token. Missing credentials.", s, false⟩
    else
      match refreshResp with
      | some r => ⟨.ok r.access_token, updateAuth s r, true⟩
      | none => ⟨.error "Token refresh failed. Please reconnect.", s, true⟩
  else
    ⟨.ok s.accessToken, s, false⟩

/-! ## PaginatedFetcher (src/services/stravaService.ts) -/

/-- One page response as seen by the pagination loops: a JSON array of
items, a non-array value (`Array.isArray(response)` false), or a thrown
fetch error with its message. -/
inductive PageResponse (α : Type) where
  | items (xs : List α)
  | nonList
  | netError (msg : String)
  deriving DecidableEq, Repr

/-- Loop body of `fetchAllActivities` (src/services/stravaService.ts,
lines 120–149), with an explicit fuel argument (the loop increments `page`
on every non-empty page and breaks once `page > 500`, so fuel `501` is never
exhausted from the real entry point).  Returns the thrown error or the
accumulated list, together with the number of page requests issued. -/
def fetchAllGo (pages : Nat → PageResponse α) :
    Nat → Nat → List α → Except String (List α) × Nat
  | 0, _, acc => (.ok acc, 0)
  | fuel + 1, page, acc =>
    match pages page with
    | .netError msg => (.error msg, 1)
    | .nonList => (.error "Invalid API response format.", 1)
    | .items [] => (.ok acc, 1)
    | .items (x :: xs) =>
      if page + 1 > 500 then (.ok (acc ++ (x :: xs)), 1)
      else
        let r := fetchAllGo pages fuel (page + 1) (acc ++ (x :: xs))
        (r.1, r.2 + 1)

/-- `fetchAllActivities` (src/services/stravaService.ts): paginate from page
1 until an empty page, throwing on a non-array response, with the `page >
500` safety break after each non-empty page.  `.2` counts the requests. -/
def fetchAllActivities (pages : Nat → PageResponse α) :
    Except String (List α) × Nat :=
  fetchAllGo pages 501 1 []

/-- Loop body of `fetchSegmentEfforts` (src/services/stravaService.ts,
lines 79–113).  A non-array response only logs a warning and stops the loop
(the accumulated efforts are returned); the safety cap is `page > 50`. -/
def fetchSegmentEffortsGo (pages : Nat → PageResponse α) :
    Nat → Nat → List α → Except String (List α) × Nat
  | 0, _, acc => (.ok acc, 0)
  | fuel + 1, page, acc =>
    match pages page with
    | .netError msg => (.error msg, 1)
    | .nonList => (.ok acc, 1)
    | .items [] => (.ok acc, 1)
    | .items (x :: xs) =>
      if page + 1 > 50 then (.ok (acc ++ (x :: xs)), 1)
      else
        let r := fetchSegmentEffortsGo pages fuel (page + 1) (acc ++ (x :: xs))
        (r.1, r.2 + 1)

/-- `fetchSegmentEfforts` (src/services/stravaService.ts): same pagination
as `fetchAllActivities` except for the 50-page cap and the lenient
non-array handling. -/
def fetchSegmentEfforts (pages : Nat → PageResponse α) :
    Except String (List α) × Nat :=
  fetchSegmentEffortsGo pages 51 1 []

/-- The items of pages `start, start+1, …, start+n-1`, concatenated (used to
state what the pagination loops accumulate). -/
def pageConcat (pages : Nat → PageResponse α) (start n : Nat) : List α :=
  (List.range' start n).flatMap fun p =>
    match pages p with
    | .items xs => xs
    | _ => []

/-! ## SyncCoordinator (src/App.tsx, `handleSync`; src/services/db.ts) -/

/-- Outcome of `handleSync`: the successfully synced list, or the caught
error message. -/
inductive SyncOutcome where
  | ok (acts : List Activity)
  | err (msg : String)
  deriving DecidableEq, Repr

/-- `handleSync` (src/App.tsx, lines 280–304) together with the database
effects of `clearDatabase` / `saveActivities` (src/services/db.ts), as a
function from the stored activity list `db0` to the stored activity list
after the call.  `pages` feeds `fetchAllActivities`; `saveOk` is whether the
atomic Dexie `bulkPut` transaction commits.  Mirrors the source order:
token resolution, `clearDatabase()`, fetch, `saveActivities`. -/
def handleSync (db0 : List Activity) (s : AuthState) (now : Int)
    (refreshResp : Option AuthResponse) (pages : Nat → PageResponse Activity)
    (saveOk : Bool) : SyncOutcome × List Activity :=
  match (if s.refreshToken ≠ "" ∧ s.clientId ≠ "" then
      (getValidToken s now refreshResp).result
    else .ok s.accessToken : Except String String) with
  | .error e => (.err e, db0)
  | .ok tokenToUse =>
    if tokenToUse = "" then (.err "Please connect to Strava first.", db0)
    else
      match (fetchAllActivities pages).1 with
      | .error e => (.err e, [])
      | .ok newActivities =>
        if saveOk then (.ok newActivities, newActivities)
        else (.err "Save failed.", [])

/-! ## SegmentReconciler (src/App.tsx, `handleSegmentClick`) -/

/-- The local-effort collection of `handleSegmentClick` (src/App.tsx, lines
320–335): for each activity with a `segment_efforts` list, `find` the first
effort on the clicked segment, backfill its `start_date` from the activity,
and keep it (recording its id in `seenIds`) only if a date is resolvable. -/
def collectStep (segmentId : Nat) (st : List SegmentEffort × Finset Nat)
    (act : Activity) : List SegmentEffort × Finset Nat :=
  match act.segment_efforts with
  | none => st
  | some effs =>
    match effs.find? (fun e => e.segment.id == segmentId) with
    | none => st
    | some m =>
      let fullEffort :=
        { m with start_date := some (m.start_date.getD act.start_date) }
      if fullEffort.start_date.isSome then
        (st.1 ++ [fullEffort], insert m.id st.2)
      else st

/-- The whole local-effort collection: fold `collectStep` over the stored
activities, starting from an empty list and an empty `seenIds` set. -/
def collectLocalEfforts (segmentId : Nat) (acts : List Activity) :
    List SegmentEffort × Finset Nat :=
  acts.foldl (collectStep segmentId) ([], ∅)

/-- What one activity contributes to the local effort list: the first entry
of its `segment_efforts` on the clicked segment, date-backfilled, if any
(specification of the `find` call in src/App.tsx line 325). -/
def localContribution (segmentId : Nat) (act : Activity) : Option SegmentEffort :=
  match act.segment_efforts with
  | none => none
  | some effs =>
    match effs.find? (fun e => e.segment.id == segmentId) with
    | none => none
    | some m =>
      let fullEffort :=
        { m with start_date := some (m.start_date.getD act.start_date) }
      if fullEffort.start_date.isSome then some fullEffort else none

/-- One step of the merge loop of `handleSegmentClick` (src/App.tsx, lines
348–356): a remote effort is appended only when its id is not in `seenIds`. -/
def mergeStep (st : List SegmentEffort × Finset Nat) (re : SegmentEffort) :
    List SegmentEffort × Finset Nat :=
  if re.id ∈ st.2 then st else (st.1 ++ [re], insert re.id st.2)

/-- The merge of `handleSegmentClick`, starting from the local efforts and
the `seenIds` set built while collecting them (which equals the set of local
effort ids, see `collectLocalEfforts_seen_eq`). -/
def mergeSegmentEfforts (localEfforts : List SegmentEffort) (seenIds : Finset Nat)
    (remoteEfforts : List SegmentEffort) : List SegmentEffort × Finset Nat :=
  remoteEfforts.foldl mergeStep (localEfforts, seenIds)

/-- The merge as a function of the two effort lists alone (the `seenIds` the
code carries into the merge is exactly the set of local ids). -/
def mergeEfforts (localEfforts remoteEfforts : List SegmentEffort) :
    List SegmentEffort :=
  (mergeSegmentEfforts localEfforts
    ((localEfforts.map SegmentEffort.id).toFinset) remoteEfforts).1

/-! ## SimilarityMatcher (src/App.tsx, `similarActivities`) -/

/-- The base-match filter body of `similarActivities` (src/App.tsx, lines
563–590), with the floating-point haversine helper
`getDistanceFromLatLonInKm` abstracted as `geo`.  `sel` is the reference
(`selectedActivity`). -/
def basicMatch (geo : ℚ × ℚ → ℚ × ℚ → ℚ) (sel act : Activity) : Bool :=
  -- must be same type
  if act.type ≠ sel.type then false
  -- distance check: toleranceDist = 0.05
  else if |act.distance - sel.distance| > sel.distance * (5 / 100) then false
  -- elevation check: toleranceElev = 0.1, floored at 20 m
  else if |act.total_elevation_gain - sel.total_elevation_gain| >
      max 20 (sel.total_elevation_gain * (1 / 10)) then false
  -- location check (start point, 500 m radius)
  else
    match sel.start_latlng, act.start_latlng with
    | some p, some q => if geo p q > 1 / 2 then false else true
    | some _, none => false
    | none, _ => true

/-- `similarActivities` (src/App.tsx, lines 557–606): filter the pool with
`basicMatch`, sort ascending by start date, and — only when segment matching
is enabled and the reference has a non-empty `segment_efforts` list — keep
the matches sharing at least one segment id with the reference. -/
def similarActivities (geo : ℚ × ℚ → ℚ × ℚ → ℚ) (sel : Activity)
    (activities : List Activity) (useSegmentMatching : Bool) : List Activity :=
  if activities.length = 0 then []
  else
    let basicMatches :=
      (activities.filter (fun act => basicMatch geo sel act)).mergeSort
        (fun a b => decide (a.start_date ≤ b.start_date))
    if useSegmentMatching then
      match sel.segment_efforts with
      | some selEffs =>
        if 0 < selEffs.length then
          let selectedSegIds := selEffs.map fun se => se.segment.id
          basicMatches.filter fun act =>
            match act.segment_efforts with
            | none => false
            | some effs =>
              if effs.length = 0 then false
              else decide
                (0 < (effs.filter fun se => selectedSegIds.contains se.segment.id).length)
        else basicMatches
      | none => basicMatches
    else basicMatches

/-- The geographic criterion as the specification words it: when the
reference has a start point, the candidate must have one within 0.5 km of it
under `geo`; no geo filter otherwise. -/
def geoCriterion (geo : ℚ × ℚ → ℚ × ℚ → ℚ) (reference a : Activity) : Prop :=
  match reference.start_latlng, a.start_latlng with
  | some p, some q => geo p q ≤ 1 / 2
  | some _, none => False
  | none, _ => True

instance (geo : ℚ × ℚ → ℚ × ℚ → ℚ) (reference a : Activity) :
    Decidable (geoCriterion geo reference a) := by
  unfold geoCriterion
  rcases reference.start_latlng with _ | p <;> rcases a.start_latlng with _ | q <;>
    exact inferInstance

/-- The base-match criteria exactly as the specification words them (§4.5):
same type, 5 % relative distance tolerance, elevation tolerance
`max(20, 10 % · reference)`, and the geo criterion. -/
def baseMatchSpec (geo : ℚ × ℚ → ℚ × ℚ → ℚ) (reference a : Activity) : Prop :=
  a.type = reference.type ∧
  |a.distance - reference.distance| ≤ 5 / 100 * reference.distance ∧
  |a.total_elevation_gain - reference.total_elevation_gain| ≤
    max 20 (10 / 100 * reference.total_elevation_gain) ∧
  geoCriterion geo reference a

instance (geo : ℚ × ℚ → ℚ × ℚ → ℚ) (reference a : Activity) :
    Decidable (baseMatchSpec geo reference a) := by
  unfold baseMatchSpec
  exact inferInstance

/-! ## Claims C7 / C8 — TokenManager -/

/-- C7 (counterexample): with no credentials at all (`expiresAt = 0`,
empty `accessToken`), `getValidToken` returns the empty access token
successfully instead of failing with an `AuthError`. -/
theorem getValidToken_returns_empty_token :
    getValidToken ⟨"", "", "", "", 0⟩ 1000 none =
      ⟨.ok "", ⟨"", "", "", "", 0⟩, false⟩ := rfl

/-- C7 (amended): `getValidToken` performs no usable-token check outside the
refresh window: when `expiresAt` is unset or more than 60 s away it returns
the stored `accessToken` as-is (even when empty).  When a refresh is needed
but `refreshToken`, `clientId` or `clientSecret` is absent, it returns the
existing `accessToken` if non-empty and otherwise fails with the
missing-credentials `AuthError`. -/
theorem getValidToken_fallback_spec (s : AuthState) (now : Int)
    (r : Option AuthResponse) :
    (¬(s.expiresAt ≠ 0 ∧ now > s.expiresAt - 60) →
      (getValidToken s now r).result = .ok s.accessToken) ∧
    ((s.expiresAt ≠ 0 ∧ now > s.expiresAt - 60) →
      (s.refreshToken = "" ∨ s.clientId = "" ∨ s.clientSecret = "") →
      (getValidToken s now r).result =
        if s.accessToken ≠ "" then .ok s.accessToken
        else .error "Cannot refresh token. Missing credentials.") := by
  constructor
  · intro h
    unfold getValidToken
    rw [if_neg h]
  · intro h hmiss
    unfold getValidToken
    rw [if_pos h, if_pos hmiss]
    split_ifs with ha <;> rfl

/-- C7 (witness for the amended theorem): a connected state whose refresh
window has been reached but whose `refreshToken` is absent falls back to the
stored access token. -/
theorem getValidToken_fallback_spec_witness :
    (getValidToken ⟨"", "", "abc", "", 100⟩ 90 none).result = .ok "abc" := by
  have h := (getValidToken_fallback_spec ⟨"", "", "abc", "", 100⟩ 90 none).2
    (by constructor <;> decide) (Or.inl rfl)
  simpa using h

/-- C8: with full credentials present, `getValidToken` issues the refresh
call iff `expiresAt` is set and `now > expiresAt - 60`; in particular with
`expiresAt = now + 30` the refresh call is made, and with
`expiresAt = now + 120` no refresh call is made and the stored access token
is returned. -/
theorem getValidToken_refresh_window (s : AuthState) (now : Int)
    (r : Option AuthResponse) (hrt : s.refreshToken ≠ "") (hci : s.clientId ≠ "")
    (hcs : s.clientSecret ≠ "") :
    ((getValidToken s now r).refreshCalled = true ↔
      (s.expiresAt ≠ 0 ∧ now > s.expiresAt - 60)) ∧
    (0 ≤ now →
      (getValidToken { s with expiresAt := now + 30 } now r).refreshCalled = true) ∧
    (getValidToken { s with expiresAt := now + 120 } now r).refreshCalled = false ∧
    (getValidToken { s with expiresAt := now + 120 } now r).result =
      .ok s.accessToken := by
  have hmiss : ¬(s.refreshToken = "" ∨ s.clientId = "" ∨ s.clientSecret = "") := by
    intro h
    rcases h with h | h | h <;> [exact hrt h; exact hci h; exact hcs h]
  refine ⟨?_, ?_, ?_, ?_⟩
  · unfold getValidToken
    by_cases h1 : s.expiresAt ≠ 0 ∧ now > s.expiresAt - 60
    · rw [if_pos h1, if_neg hmiss]
      cases r <;> simp [h1]
    · rw [if_neg h1]
      simp [h1]
  · intro hnow
    unfold getValidToken
    rw [if_pos (by refine ⟨?_, ?_⟩ <;> simp <;> omega),
      if_neg (show ¬_ by simpa using hmiss)]
    cases r <;> rfl
  · unfold getValidToken
    rw [if_neg (by intro hcond; simp at hcond; omega)]
  · unfold getValidToken
    rw [if_neg (by intro hcond; simp at hcond; omega)]

/-- C8 (witness): concrete connected state, `now = 1000`; with
`expiresAt = 1030` the refresh is issued, with `expiresAt = 1120` it is not
and the stored token comes back. -/
theorem getValidToken_refresh_window_witness :
    (getValidToken ⟨"cid", "cs", "tok", "rt", 1030⟩ 1000 none).refreshCalled = true ∧
    (getValidToken ⟨"cid", "cs", "tok", "rt", 1120⟩ 1000 none).refreshCalled = false ∧
    (getValidToken ⟨"cid", "cs", "tok", "rt", 1120⟩ 1000 none).result = .ok "tok" := by
  have h := getValidToken_refresh_window ⟨"cid", "cs", "tok", "rt", 0⟩ 1000 none
    (by decide) (by decide) (by decide)
  exact ⟨h.2.1 (by decide), h.2.2.1, h.2.2.2⟩

/-! ## Claims C2 / C5 — SimilarityMatcher -/

/-- With segment refinement off, `similarActivities` is the date-sorted
base-match filter. -/
theorem similarActivities_false (geo : ℚ × ℚ → ℚ × ℚ → ℚ) (sel : Activity)
    (pool : List Activity) :
    similarActivities geo sel pool false =
      if pool.length = 0 then []
      else (pool.filter fun act => basicMatch geo sel act).mergeSort
        (fun a b => decide (a.start_date ≤ b.start_date)) := rfl

/-- The sequential early-return checks of the code's filter body agree with
the specification's conjunction of criteria. -/
theorem basicMatch_iff (geo : ℚ × ℚ → ℚ × ℚ → ℚ) (sel act : Activity) :
    basicMatch geo sel act = true ↔ baseMatchSpec geo sel act := by
  unfold basicMatch baseMatchSpec
  constructor
  · intro hb
    split_ifs at hb with h1 h2 h3
    refine ⟨not_not.mp h1, ?_, ?_, ?_⟩
    · rw [show (5 : ℚ) / 100 * sel.distance = sel.distance * (5 / 100) from by ring]
      exact not_lt.mp h2
    · rw [show (10 : ℚ) / 100 * sel.total_elevation_gain =
        sel.total_elevation_gain * (1 / 10) from by ring]
      exact not_lt.mp h3
    · unfold geoCriterion
      rcases hs : sel.start_latlng with _ | p <;>
        rcases ha : act.start_latlng with _ | q <;> rw [hs, ha] at hb
      · trivial
      · trivial
      · exact Bool.noConfusion (show false = true from hb)
      · have hb2 : (if geo p q > 1 / 2 then false else true) = true := hb
        show geo p q ≤ 1 / 2
        by_cases hgb : geo p q > 1 / 2
        · rw [if_pos hgb] at hb2
          cases hb2
        · exact not_lt.mp hgb
  · rintro ⟨ht, hd, he, hg⟩
    have hd2 : ¬(|act.distance - sel.distance| > sel.distance * (5 / 100)) := by
      rw [show sel.distance * (5 / 100) = 5 / 100 * sel.distance from by ring]
      exact not_lt.mpr hd
    have he2 : ¬(|act.total_elevation_gain - sel.total_elevation_gain| >
        max 20 (sel.total_elevation_gain * (1 / 10))) := by
      rw [show sel.total_elevation_gain * (1 / 10) =
        10 / 100 * sel.total_elevation_gain from by ring]
      exact not_lt.mpr he
    rw [if_neg (fun hh => hh ht), if_neg hd2, if_neg he2]
    unfold geoCriterion at hg
    rcases hs : sel.start_latlng with _ | p <;>
      rcases ha : act.start_latlng with _ | q <;> rw [hs, ha] at hg
    · exact (show False from hg).elim
    · show (if geo p q > 1 / 2 then false else true) = true
      rw [if_neg (not_lt.mpr (show geo p q ≤ 1 / 2 from hg))]

/-- C2: with segment refinement off, `similarActivities` returns exactly the
pool activities satisfying the specification's base-match criteria (type,
5 % distance tolerance, `max(20, 10 %)` elevation tolerance, 0.5 km start
proximity under `geo` when the reference has a start point), sorted
ascending by start date, and includes the reference itself whenever it is in
the pool.  `geo` abstracts the haversine helper; it is only assumed to be
zero on identical points, as the haversine distance is. -/
theorem similarActivities_base_spec (geo : ℚ × ℚ → ℚ × ℚ → ℚ) (sel : Activity)
    (pool : List Activity) (hgeo : ∀ p, geo p p = 0) (hd : 0 ≤ sel.distance) :
    (∀ a, a ∈ similarActivities geo sel pool false ↔
      a ∈ pool ∧ baseMatchSpec geo sel a) ∧
    (similarActivities geo sel pool false).Pairwise
      (fun a b => a.start_date ≤ b.start_date) ∧
    (sel ∈ pool → sel ∈ similarActivities geo sel pool false) := by
  have hself : baseMatchSpec geo sel sel := by
    refine ⟨rfl, ?_, ?_, ?_⟩
    · rw [sub_self, abs_zero]
      positivity
    · rw [sub_self, abs_zero]
      exact le_max_of_le_left (by norm_num)
    · unfold geoCriterion
      rcases hs : sel.start_latlng with _ | p <;> dsimp only
      rw [hgeo p]
      norm_num
  rw [similarActivities_false]
  by_cases hpool : pool.length = 0
  · rw [List.length_eq_zero] at hpool
    subst hpool
    refine ⟨fun a => by simp, by simp, by simp⟩
  · rw [if_neg hpool]
    refine ⟨?_, ?_, ?_⟩
    · intro a
      rw [List.mem_mergeSort, List.mem_filter, basicMatch_iff]
    · have hsorted : ((pool.filter fun act => basicMatch geo sel act).mergeSort
          (fun a b => decide (a.start_date ≤ b.start_date))).Pairwise
          (fun a b => decide (a.start_date ≤ b.start_date) = true) :=
        List.sorted_mergeSort
          (fun a b c hab hbc => by
            simp only [decide_eq_true_eq] at hab hbc ⊢
            omega)
          (fun a b => by
            simp only [Bool.or_eq_true, decide_eq_true_eq]
            omega) _
      exact hsorted.imp fun h => by simpa using h
    · intro hmem
      rw [List.mem_mergeSort, List.mem_filter]
      exact ⟨hmem, (basicMatch_iff geo sel sel).mpr hself⟩

/-- C2 (witness): the theorem instantiated on the spec's §8 end-to-end
scenario — reference Run of 10000 m / 100 m gain; membership of candidate B
in the result is exactly pool membership plus the base-match criteria. -/
theorem similarActivities_base_spec_witness :
    ⟨2, "B", 10300, 105, "Run", 9, some (47.6005, -122.3005), none⟩ ∈
        similarActivities (fun _ _ => 0)
        ⟨1, "ref", 10000, 100, "Run", 5, some (47.6, -122.3), none⟩
        [⟨1, "ref", 10000, 100, "Run", 5, some (47.6, -122.3), none⟩,
         ⟨2, "B", 10300, 105, "Run", 9, some (47.6005, -122.3005), none⟩,
         ⟨3, "C", 12000, 100, "Run", 1, some (47.6, -122.3), none⟩] false ↔
      (⟨2, "B", 10300, 105, "Run", 9, some (47.6005, -122.3005), none⟩ ∈
        ([⟨1, "ref", 10000, 100, "Run", 5, some (47.6, -122.3), none⟩,
         ⟨2, "B", 10300, 105, "Run", 9, some (47.6005, -122.3005), none⟩,
         ⟨3, "C", 12000, 100, "Run", 1, some (47.6, -122.3), none⟩] :
           List Activity) ∧
        baseMatchSpec (fun _ _ => 0)
          ⟨1, "ref", 10000, 100, "Run", 5, some (47.6, -122.3), none⟩
          ⟨2, "B", 10300, 105, "Run", 9, some (47.6005, -122.3005), none⟩) :=
  (similarActivities_base_spec (fun _ _ => 0)
    ⟨1, "ref", 10000, 100, "Run", 5, some (47.6, -122.3), none⟩
    [⟨1, "ref", 10000, 100, "Run", 5, some (47.6, -122.3), none⟩,
     ⟨2, "B", 10300, 105, "Run", 9, some (47.6005, -122.3005), none⟩,
     ⟨3, "C", 12000, 100, "Run", 1, some (47.6, -122.3), none⟩]
    (fun _ => rfl) (by norm_num)).1
    ⟨2, "B", 10300, 105, "Run", 9, some (47.6005, -122.3005), none⟩

/-- C5 (counterexample): the base-match relation is not symmetric — two
Runs with zero elevation gain and no start point, at 9500 m and 10000 m:
the 9500 m run matches reference 10000 m (500 ≤ 5 % · 10000) but the
10000 m run does not match reference 9500 m (500 > 475 = 5 % · 9500). -/
theorem basicMatch_not_symmetric :
    basicMatch (fun _ _ => 0) ⟨2, "B", 10000, 0, "Run", 5, none, none⟩
        ⟨1, "A", 9500, 0, "Run", 3, none, none⟩ = true ∧
    basicMatch (fun _ _ => 0) ⟨1, "A", 9500, 0, "Run", 3, none, none⟩
        ⟨2, "B", 10000, 0, "Run", 5, none, none⟩ = false := by
  have habs1 : |(9500 : ℚ) - 10000| = 500 := by
    rw [abs_sub_comm, show (10000 : ℚ) - 9500 = 500 from by norm_num]
    exact abs_of_pos (by norm_num)
  have habs2 : |(10000 : ℚ) - 9500| = 500 := by
    rw [show (10000 : ℚ) - 9500 = 500 from by norm_num]
    exact abs_of_pos (by norm_num)
  constructor
  · unfold basicMatch
    dsimp only
    rw [if_neg (by decide), if_neg (by rw [habs1]; norm_num),
      if_neg (by rw [sub_self, abs_zero]; norm_num)]
  · unfold basicMatch
    dsimp only
    rw [if_neg (by decide), if_pos (by rw [habs2]; norm_num)]

/-- C5 (amended): the tolerances are computed relative to the reference, so
the base-match relation is not symmetric in general; it is symmetric when
the two activities have equal distance and equal elevation gain and either
both or neither record a start point (for a symmetric geo distance). -/
theorem basicMatch_symm_of_eq (geo : ℚ × ℚ → ℚ × ℚ → ℚ) (a b : Activity)
    (hgeo : ∀ p q, geo p q = geo q p)
    (hdist : a.distance = b.distance)
    (helev : a.total_elevation_gain = b.total_elevation_gain)
    (hll : a.start_latlng.isSome = b.start_latlng.isSome) :
    basicMatch geo a b = basicMatch geo b a := by
  unfold basicMatch
  rcases hpa : a.start_latlng with _ | p <;> rcases hpb : b.start_latlng with _ | q <;>
    [skip; (rw [hpa, hpb] at hll; cases hll); (rw [hpa, hpb] at hll; cases hll); skip] <;>
    dsimp only <;> rw [hdist, helev] <;>
    by_cases ht : a.type = b.type
  · rw [ht]
  · rw [if_pos (show b.type ≠ a.type from fun hh => ht hh.symm),
      if_pos (show a.type ≠ b.type from ht)]
  · rw [hgeo p q, ht]
  · rw [if_pos (show b.type ≠ a.type from fun hh => ht hh.symm),
      if_pos (show a.type ≠ b.type from ht)]

/-- C5 (witness for the amended theorem): two otherwise-identical runs at
the same distance and elevation, neither with a start point, match each
other symmetrically. -/
theorem basicMatch_symm_of_eq_witness :
    basicMatch (fun _ _ => 0) ⟨1, "A", 8000, 40, "Run", 3, none, none⟩
        ⟨2, "B", 8000, 40, "Run", 7, none, none⟩ =
      basicMatch (fun _ _ => 0) ⟨2, "B", 8000, 40, "Run", 7, none, none⟩
        ⟨1, "A", 8000, 40, "Run", 3, none, none⟩ :=
  basicMatch_symm_of_eq (fun _ _ => 0) ⟨1, "A", 8000, 40, "Run", 3, none, none⟩
    ⟨2, "B", 8000, 40, "Run", 7, none, none⟩ (fun _ _ => rfl) rfl rfl rfl

/-! ## Claims C4 / C10 — SegmentReconciler -/

/-- One collection step either leaves the state alone or appends exactly the
activity's `localContribution`, recording its id. -/
theorem collectStep_eq (segmentId : Nat) (st : List SegmentEffort × Finset Nat)
    (act : Activity) :
    collectStep segmentId st act =
      match localContribution segmentId act with
      | none => st
      | some fe => (st.1 ++ [fe], insert fe.id st.2) := by
  unfold collectStep localContribution
  rcases hse : act.segment_efforts with _ | effs
  · exact rfl
  · dsimp only
    rcases hf : effs.find? (fun e => e.segment.id == segmentId) with _ | m <;>
      (try rw [hf]) <;> exact rfl

/-- Unfolding one activity off the collection fold. -/
theorem collectFold_cons (segmentId : Nat) (act : Activity) (acts : List Activity)
    (st : List SegmentEffort × Finset Nat) :
    (act :: acts).foldl (collectStep segmentId) st =
      acts.foldl (collectStep segmentId) (collectStep segmentId st act) := rfl

/-- The collection fold appends exactly the per-activity contributions, and
preserves the `seenIds = collected ids` invariant. -/
theorem collectFold_spec (segmentId : Nat) (acts : List Activity) :
    ∀ st : List SegmentEffort × Finset Nat,
      (acts.foldl (collectStep segmentId) st).1 =
        st.1 ++ acts.filterMap (localContribution segmentId) ∧
      (st.2 = (st.1.map SegmentEffort.id).toFinset →
        (acts.foldl (collectStep segmentId) st).2 =
          ((acts.foldl (collectStep segmentId) st).1.map SegmentEffort.id).toFinset) := by
  induction acts with
  | nil => exact fun st => ⟨(List.append_nil st.1).symm, fun h => h⟩
  | cons act acts ih =>
    intro st
    rw [collectFold_cons, collectStep_eq]
    rcases hc : localContribution segmentId act with _ | fe <;> dsimp only
    · rw [List.filterMap_cons_none hc]
      exact ⟨(ih st).1, (ih st).2⟩
    · rw [List.filterMap_cons_some hc]
      refine ⟨?_, ?_⟩
      · rw [(ih (st.1 ++ [fe], insert fe.id st.2)).1, List.append_assoc]
        exact rfl
      · intro h
        refine (ih (st.1 ++ [fe], insert fe.id st.2)).2 ?_
        rw [h]
        ext a
        simp [or_comm]

/-- The `seenIds` set carried out of the local-effort collection is exactly
the set of collected local effort ids (so `mergeEfforts` models the merge
faithfully). -/
theorem collectLocalEfforts_seen_eq (segmentId : Nat) (acts : List Activity) :
    (collectLocalEfforts segmentId acts).2 =
      ((collectLocalEfforts segmentId acts).1.map SegmentEffort.id).toFinset :=
  (collectFold_spec segmentId acts ([], ∅)).2 (by simp)

/-- C10: the local-effort collection contributes, per activity, exactly
`localContribution` — the *first* effort of the activity's `segment_efforts`
on the clicked segment (date-backfilled) — so it yields at most one effort
per activity, and an activity whose `segment_efforts` starts with a matching
effort contributes that one regardless of any later matching efforts. -/
theorem collectLocalEfforts_first_match (segmentId : Nat) (acts : List Activity) :
    (collectLocalEfforts segmentId acts).1 =
      acts.filterMap (localContribution segmentId) ∧
    (collectLocalEfforts segmentId acts).1.length ≤ acts.length ∧
    ∀ (act : Activity) (e : SegmentEffort) (rest : List SegmentEffort),
      act.segment_efforts = some (e :: rest) → e.segment.id = segmentId →
      localContribution segmentId act =
        some { e with start_date := some (e.start_date.getD act.start_date) } := by
  have h1 : (collectLocalEfforts segmentId acts).1 =
      acts.filterMap (localContribution segmentId) := by
    have h := (collectFold_spec segmentId acts ([], ∅)).1
    simpa using h
  refine ⟨h1, ?_, ?_⟩
  · rw [h1]
    exact List.length_filterMap_le _ _
  · intro act e rest hse he
    unfold localContribution
    rw [hse]
    dsimp only
    rw [List.find?_cons_of_pos _ (by simpa using he)]
    exact rfl

/-- C10 (witness): an activity that traversed segment 7 twice contributes
only its first effort on it, with the date backfilled from the activity. -/
theorem collectLocalEfforts_first_match_witness :
    localContribution 7
        ⟨1, "a", 0, 0, "Run", 99, none,
          some [⟨10, 1, none, ⟨7, "s"⟩⟩, ⟨11, 1, some 3, ⟨7, "s"⟩⟩]⟩ =
      some ⟨10, 1, some 99, ⟨7, "s"⟩⟩ :=
  (collectLocalEfforts_first_match 7 []).2.2
    ⟨1, "a", 0, 0, "Run", 99, none,
      some [⟨10, 1, none, ⟨7, "s"⟩⟩, ⟨11, 1, some 3, ⟨7, "s"⟩⟩]⟩
    ⟨10, 1, none, ⟨7, "s"⟩⟩ [⟨11, 1, some 3, ⟨7, "s"⟩⟩] rfl rfl

/-- Unfolding one remote effort off the merge fold. -/
theorem mergeFold_cons (l : List SegmentEffort) (seen : Finset Nat)
    (re : SegmentEffort) (r : List SegmentEffort) :
    mergeSegmentEfforts l seen (re :: r) =
      mergeSegmentEfforts (mergeStep (l, seen) re).1 (mergeStep (l, seen) re).2 r :=
  rfl

/-- If every remote id is already seen, the merge appends nothing. -/
theorem mergeFold_skip (r : List SegmentEffort) :
    ∀ (l : List SegmentEffort) (seen : Finset Nat), (∀ e ∈ r, e.id ∈ seen) →
      mergeSegmentEfforts l seen r = (l, seen) := by
  induction r with
  | nil => exact fun l seen _ => rfl
  | cons re r ih =>
    intro l seen h
    rw [mergeFold_cons]
    have hstep : mergeStep (l, seen) re = (l, seen) := by
      unfold mergeStep
      rw [if_pos (h re (List.mem_cons_self re r))]
    rw [hstep]
    exact ih l seen fun e he => h e (List.mem_cons_of_mem re he)

/-- Invariants of the merge fold, starting from a local list with distinct
ids and its id set: the merged ids stay distinct, the merged id set is the
union of the two id sets, and the merge appends (after the unchanged local
list) only efforts whose id is not a local id. -/
theorem mergeFold_spec (r : List SegmentEffort) :
    ∀ l : List SegmentEffort, (l.map SegmentEffort.id).Nodup →
      ((mergeSegmentEfforts l (l.map SegmentEffort.id).toFinset r).1.map
        SegmentEffort.id).Nodup ∧
      ((mergeSegmentEfforts l (l.map SegmentEffort.id).toFinset r).1.map
        SegmentEffort.id).toFinset =
        (l.map SegmentEffort.id).toFinset ∪ (r.map SegmentEffort.id).toFinset ∧
      ∃ apps : List SegmentEffort,
        (mergeSegmentEfforts l (l.map SegmentEffort.id).toFinset r).1 = l ++ apps ∧
        ∀ e ∈ apps, e.id ∉ (l.map SegmentEffort.id).toFinset := by
  induction r with
  | nil =>
    intro l hl
    refine ⟨hl, by simp [mergeSegmentEfforts], [], ?_, ?_⟩
    · rw [List.append_nil]
      exact rfl
    · intro e he
      exact absurd he (List.not_mem_nil e)
  | cons re r ih =>
    intro l hl
    rw [mergeFold_cons]
    by_cases hmem : re.id ∈ (l.map SegmentEffort.id).toFinset
    · have hstep : mergeStep (l, (l.map SegmentEffort.id).toFinset) re =
          (l, (l.map SegmentEffort.id).toFinset) := by
        unfold mergeStep
        rw [if_pos hmem]
      rw [hstep]
      obtain ⟨h1, h2, apps, h3, h4⟩ := ih l hl
      refine ⟨h1, ?_, apps, h3, h4⟩
      rw [h2, List.map_cons, List.toFinset_cons, Finset.union_insert,
        Finset.insert_eq_self.mpr (Finset.mem_union_left _ hmem)]
    · have hstep : mergeStep (l, (l.map SegmentEffort.id).toFinset) re =
          (l ++ [re], insert re.id (l.map SegmentEffort.id).toFinset) := by
        unfold mergeStep
        rw [if_neg hmem]
      have hseen : insert re.id (l.map SegmentEffort.id).toFinset =
          ((l ++ [re]).map SegmentEffort.id).toFinset := by
        rw [List.map_append]
        ext a
        simp [or_comm]
      have hl2 : ((l ++ [re]).map SegmentEffort.id).Nodup := by
        rw [List.map_append, List.nodup_append]
        refine ⟨hl, List.nodup_singleton _, ?_⟩
        intro a ha hb
        simp only [List.map_cons, List.map_nil, List.mem_singleton] at hb
        subst hb
        exact hmem (List.mem_toFinset.mpr ha)
      rw [hstep, hseen]
      obtain ⟨h1, h2, apps, h3, h4⟩ := ih (l ++ [re]) hl2
      refine ⟨h1, ?_, re :: apps, ?_, ?_⟩
      · rw [h2]
        simp only [List.map_append, List.map_cons, List.map_nil,
          List.toFinset_append, List.toFinset_cons, List.toFinset_nil]
        rw [Finset.union_insert, Finset.union_empty, Finset.insert_union,
          Finset.union_insert]
      · rw [h3, List.append_assoc]
        exact rfl
      · intro e he
        rcases List.mem_cons.mp he with rfl | he2
        · exact hmem
        · intro hmem2
          exact h4 e he2 (by
            rw [List.map_append, List.toFinset_append]
            exact Finset.mem_union_left _ hmem2)

/-- C4: for local and remote effort lists (local ids pairwise distinct, the
data-model invariant), the merge keeps ids distinct, covers exactly the
union of local and remote ids, keeps every local effort and keeps *only*
the local effort on any id collision, is unchanged by re-merging the same
remote list, and has as many entries as distinct ids in the union. -/
theorem mergeEfforts_spec (localEfforts remoteEfforts : List SegmentEffort)
    (hl : (localEfforts.map SegmentEffort.id).Nodup) :
    ((mergeEfforts localEfforts remoteEfforts).map SegmentEffort.id).Nodup ∧
    ((mergeEfforts localEfforts remoteEfforts).map SegmentEffort.id).toFinset =
      (localEfforts.map SegmentEffort.id).toFinset ∪
        (remoteEfforts.map SegmentEffort.id).toFinset ∧
    (∀ e ∈ localEfforts, e ∈ mergeEfforts localEfforts remoteEfforts) ∧
    (∀ e ∈ mergeEfforts localEfforts remoteEfforts,
      e.id ∈ (localEfforts.map SegmentEffort.id).toFinset → e ∈ localEfforts) ∧
    mergeEfforts (mergeEfforts localEfforts remoteEfforts) remoteEfforts =
      mergeEfforts localEfforts remoteEfforts ∧
    (mergeEfforts localEfforts remoteEfforts).length =
      ((localEfforts.map SegmentEffort.id).toFinset ∪
        (remoteEfforts.map SegmentEffort.id).toFinset).card := by
  obtain ⟨h1, h2, apps, h3, h4⟩ := mergeFold_spec remoteEfforts localEfforts hl
  have hm : mergeEfforts localEfforts remoteEfforts = localEfforts ++ apps := h3
  have h1m : ((mergeEfforts localEfforts remoteEfforts).map SegmentEffort.id).Nodup := h1
  have h2m : ((mergeEfforts localEfforts remoteEfforts).map SegmentEffort.id).toFinset =
      (localEfforts.map SegmentEffort.id).toFinset ∪
        (remoteEfforts.map SegmentEffort.id).toFinset := h2
  refine ⟨h1m, h2m, ?_, ?_, ?_, ?_⟩
  · intro e he
    rw [hm]
    exact List.mem_append_left _ he
  · intro e he hid
    rw [hm] at he
    rcases List.mem_append.mp he with h | h
    · exact h
    · exact absurd hid (h4 e h)
  · show (mergeSegmentEfforts (mergeEfforts localEfforts remoteEfforts)
      (((mergeEfforts localEfforts remoteEfforts).map SegmentEffort.id).toFinset)
      remoteEfforts).1 = mergeEfforts localEfforts remoteEfforts
    rw [mergeFold_skip remoteEfforts _ _ ?_]
    intro e he
    rw [h2m]
    exact Finset.mem_union_right _ (List.mem_toFinset.mpr (List.mem_map_of_mem _ he))
  · have hcard := List.toFinset_card_of_nodup h1m
    rw [h2m, List.length_map] at hcard
    exact hcard.symm

/-- C4 (witness): one local effort (id 1), remote list with a colliding id 1
and a duplicated id 2 — re-merging the same remote list leaves the merged
list unchanged. -/
theorem mergeEfforts_spec_witness :
    mergeEfforts
        (mergeEfforts [⟨1, 10, some 5, ⟨7, "s"⟩⟩]
          [⟨1, 10, none, ⟨7, "s"⟩⟩, ⟨2, 11, some 9, ⟨7, "s"⟩⟩, ⟨2, 11, some 9, ⟨7, "s"⟩⟩])
        [⟨1, 10, none, ⟨7, "s"⟩⟩, ⟨2, 11, some 9, ⟨7, "s"⟩⟩, ⟨2, 11, some 9, ⟨7, "s"⟩⟩] =
      mergeEfforts [⟨1, 10, some 5, ⟨7, "s"⟩⟩]
        [⟨1, 10, none, ⟨7, "s"⟩⟩, ⟨2, 11, some 9, ⟨7, "s"⟩⟩, ⟨2, 11, some 9, ⟨7, "s"⟩⟩] :=
  (mergeEfforts_spec [⟨1, 10, some 5, ⟨7, "s"⟩⟩]
    [⟨1, 10, none, ⟨7, "s"⟩⟩, ⟨2, 11, some 9, ⟨7, "s"⟩⟩, ⟨2, 11, some 9, ⟨7, "s"⟩⟩]
    (by decide)).2.2.2.2.1

/-! ## Claims C3 / C6 / C9 — PaginatedFetcher -/

/-- Peeling one page off `pageConcat` when that page is a list. -/
theorem pageConcat_succ_items (pages : Nat → PageResponse α) (s n : Nat)
    (xs : List α) (h : pages s = .items xs) :
    pageConcat pages s (n + 1) = xs ++ pageConcat pages (s + 1) n := by
  unfold pageConcat
  rw [List.range'_succ, List.flatMap_cons, h]

/-- The activity-list loop, started anywhere below the first empty page,
accumulates exactly the pages up to (excluding) that empty page and issues
one request per page visited. -/
theorem fetchAllGo_stops (pages : Nat → PageResponse α) (k : Nat) (hk : k ≤ 500)
    (hempty : pages k = .items [])
    (hfull : ∀ p, 1 ≤ p → p < k → ∃ x xs, pages p = .items (x :: xs)) :
    ∀ (fuel page : Nat) (acc : List α), fuel + page = 502 → 1 ≤ page → page ≤ k →
      fetchAllGo pages fuel page acc =
        (.ok (acc ++ pageConcat pages page (k - page)), k - page + 1) := by
  intro fuel
  induction fuel with
  | zero =>
    intro page acc hsum hp1 hpk
    omega
  | succ fuel ih =>
    intro page acc hsum hp1 hpk
    by_cases hpk2 : page = k
    · subst hpk2
      simp only [fetchAllGo]
      rw [hempty, Nat.sub_self, show pageConcat pages page 0 = [] from rfl,
        List.append_nil]
    · have hlt : page < k := lt_of_le_of_ne hpk hpk2
      obtain ⟨x, xs, hp⟩ := hfull page hp1 hlt
      simp only [fetchAllGo]
      rw [hp]
      dsimp only
      rw [if_neg (by omega), ih (page + 1) (acc ++ (x :: xs)) (by omega) (by omega)
        (by omega)]
      have hn : k - page = (k - (page + 1) + 1) := by omega
      rw [hn, pageConcat_succ_items pages page (k - (page + 1)) (x :: xs) hp,
        List.append_assoc]

/-- Same as `fetchAllGo_stops` for the segment-effort loop and its 50-page
ceiling. -/
theorem fetchSegmentEffortsGo_stops (pages : Nat → PageResponse α) (k : Nat)
    (hk : k ≤ 50) (hempty : pages k = .items [])
    (hfull : ∀ p, 1 ≤ p → p < k → ∃ x xs, pages p = .items (x :: xs)) :
    ∀ (fuel page : Nat) (acc : List α), fuel + page = 52 → 1 ≤ page → page ≤ k →
      fetchSegmentEffortsGo pages fuel page acc =
        (.ok (acc ++ pageConcat pages page (k - page)), k - page + 1) := by
  intro fuel
  induction fuel with
  | zero =>
    intro page acc hsum hp1 hpk
    omega
  | succ fuel ih =>
    intro page acc hsum hp1 hpk
    by_cases hpk2 : page = k
    · subst hpk2
      simp only [fetchSegmentEffortsGo]
      rw [hempty, Nat.sub_self, show pageConcat pages page 0 = [] from rfl,
        List.append_nil]
    · have hlt : page < k := lt_of_le_of_ne hpk hpk2
      obtain ⟨x, xs, hp⟩ := hfull page hp1 hlt
      simp only [fetchSegmentEffortsGo]
      rw [hp]
      dsimp only
      rw [if_neg (by omega), ih (page + 1) (acc ++ (x :: xs)) (by omega) (by omega)
        (by omega)]
      have hn : k - page = (k - (page + 1) + 1) := by omega
      rw [hn, pageConcat_succ_items pages page (k - (page + 1)) (x :: xs) hp,
        List.append_assoc]

/-- Unconditional request bound for the activity-list loop. -/
theorem fetchAllGo_count_le (pages : Nat → PageResponse α) :
    ∀ (fuel page : Nat) (acc : List α), 1 ≤ page → page ≤ 500 →
      (fetchAllGo pages fuel page acc).2 ≤ 501 - page := by
  intro fuel
  induction fuel with
  | zero =>
    intro page acc hp1 hp5
    exact Nat.zero_le _
  | succ fuel ih =>
    intro page acc hp1 hp5
    simp only [fetchAllGo]
    rcases hp : pages page with (_ | ⟨x, xs⟩) | _ | msg <;> dsimp only
    · omega
    · split_ifs with hcap
      · dsimp only
        omega
      · dsimp only
        have := ih (page + 1) (acc ++ (x :: xs)) (by omega) (by omega)
        omega
    · omega
    · omega

/-- Unconditional request bound for the segment-effort loop. -/
theorem fetchSegmentEffortsGo_count_le (pages : Nat → PageResponse α) :
    ∀ (fuel page : Nat) (acc : List α), 1 ≤ page → page ≤ 50 →
      (fetchSegmentEffortsGo pages fuel page acc).2 ≤ 51 - page := by
  intro fuel
  induction fuel with
  | zero =>
    intro page acc hp1 hp5
    exact Nat.zero_le _
  | succ fuel ih =>
    intro page acc hp1 hp5
    simp only [fetchSegmentEffortsGo]
    rcases hp : pages page with (_ | ⟨x, xs⟩) | _ | msg <;> dsimp only
    · omega
    · split_ifs with hcap
      · dsimp only
        omega
      · dsimp only
        have := ih (page + 1) (acc ++ (x :: xs)) (by omega) (by omega)
        omega
    · omega
    · omega

/-- When every page is non-empty, the activity-list loop visits exactly the
pages up to the 500-page ceiling. -/
theorem fetchAllGo_full (pages : Nat → PageResponse α)
    (hfull : ∀ p, 1 ≤ p → ∃ x xs, pages p = .items (x :: xs)) :
    ∀ (fuel page : Nat) (acc : List α), fuel + page = 502 → 1 ≤ page → page ≤ 500 →
      fetchAllGo pages fuel page acc =
        (.ok (acc ++ pageConcat pages page (500 - page + 1)), 500 - page + 1) := by
  intro fuel
  induction fuel with
  | zero =>
    intro page acc hsum hp1 hp5
    omega
  | succ fuel ih =>
    intro page acc hsum hp1 hp5
    obtain ⟨x, xs, hp⟩ := hfull page hp1
    simp only [fetchAllGo]
    rw [hp]
    dsimp only
    by_cases hcap : page + 1 > 500
    · rw [if_pos hcap]
      have hp500 : page = 500 := by omega
      subst hp500
      rw [Nat.sub_self, pageConcat_succ_items pages 500 0 (x :: xs) hp,
        show pageConcat pages 501 0 = [] from rfl, List.append_nil]
    · rw [if_neg hcap, ih (page + 1) (acc ++ (x :: xs)) (by omega) (by omega)
        (by omega)]
      have hn : 500 - page + 1 = (500 - (page + 1) + 1) + 1 := by omega
      rw [hn, pageConcat_succ_items pages page (500 - (page + 1) + 1) (x :: xs) hp,
        List.append_assoc]

/-- When every page is non-empty, the segment-effort loop visits exactly the
pages up to the 50-page ceiling. -/
theorem fetchSegmentEffortsGo_full (pages : Nat → PageResponse α)
    (hfull : ∀ p, 1 ≤ p → ∃ x xs, pages p = .items (x :: xs)) :
    ∀ (fuel page : Nat) (acc : List α), fuel + page = 52 → 1 ≤ page → page ≤ 50 →
      fetchSegmentEffortsGo pages fuel page acc =
        (.ok (acc ++ pageConcat pages page (50 - page + 1)), 50 - page + 1) := by
  intro fuel
  induction fuel with
  | zero =>
    intro page acc hsum hp1 hp5
    omega
  | succ fuel ih =>
    intro page acc hsum hp1 hp5
    obtain ⟨x, xs, hp⟩ := hfull page hp1
    simp only [fetchSegmentEffortsGo]
    rw [hp]
    dsimp only
    by_cases hcap : page + 1 > 50
    · rw [if_pos hcap]
      have hp50 : page = 50 := by omega
      subst hp50
      rw [Nat.sub_self, pageConcat_succ_items pages 50 0 (x :: xs) hp,
        show pageConcat pages 51 0 = [] from rfl, List.append_nil]
    · rw [if_neg hcap, ih (page + 1) (acc ++ (x :: xs)) (by omega) (by omega)
        (by omega)]
      have hn : 50 - page + 1 = (50 - (page + 1) + 1) + 1 := by omega
      rw [hn, pageConcat_succ_items pages page (50 - (page + 1) + 1) (x :: xs) hp,
        List.append_assoc]

/-- A non-list page aborts the activity-list loop with the DataError. -/
theorem fetchAllGo_nonList (pages : Nat → PageResponse α) (k : Nat) (hk : k ≤ 500)
    (hnl : pages k = .nonList)
    (hfull : ∀ p, 1 ≤ p → p < k → ∃ x xs, pages p = .items (x :: xs)) :
    ∀ (fuel page : Nat) (acc : List α), fuel + page = 502 → 1 ≤ page → page ≤ k →
      fetchAllGo pages fuel page acc =
        (.error "Invalid API response format.", k - page + 1) := by
  intro fuel
  induction fuel with
  | zero =>
    intro page acc hsum hp1 hpk
    omega
  | succ fuel ih =>
    intro page acc hsum hp1 hpk
    by_cases hpk2 : page = k
    · subst hpk2
      simp only [fetchAllGo]
      rw [hnl, Nat.sub_self]
    · have hlt : page < k := lt_of_le_of_ne hpk hpk2
      obtain ⟨x, xs, hp⟩ := hfull page hp1 hlt
      simp only [fetchAllGo]
      rw [hp]
      dsimp only
      rw [if_neg (by omega), ih (page + 1) (acc ++ (x :: xs)) (by omega) (by omega)
        (by omega)]
      have hn : k - page = (k - (page + 1) + 1) := by omega
      rw [hn]

/-- A non-list page silently terminates the segment-effort loop, returning
the items accumulated so far. -/
theorem fetchSegmentEffortsGo_nonList (pages : Nat → PageResponse α) (k : Nat)
    (hk : k ≤ 50) (hnl : pages k = .nonList)
    (hfull : ∀ p, 1 ≤ p → p < k → ∃ x xs, pages p = .items (x :: xs)) :
    ∀ (fuel page : Nat) (acc : List α), fuel + page = 52 → 1 ≤ page → page ≤ k →
      fetchSegmentEffortsGo pages fuel page acc =
        (.ok (acc ++ pageConcat pages page (k - page)), k - page + 1) := by
  intro fuel
  induction fuel with
  | zero =>
    intro page acc hsum hp1 hpk
    omega
  | succ fuel ih =>
    intro page acc hsum hp1 hpk
    by_cases hpk2 : page = k
    · subst hpk2
      simp only [fetchSegmentEffortsGo]
      rw [hnl, Nat.sub_self, show pageConcat pages page 0 = [] from rfl,
        List.append_nil]
    · have hlt : page < k := lt_of_le_of_ne hpk hpk2
      obtain ⟨x, xs, hp⟩ := hfull page hp1 hlt
      simp only [fetchSegmentEffortsGo]
      rw [hp]
      dsimp only
      rw [if_neg (by omega), ih (page + 1) (acc ++ (x :: xs)) (by omega) (by omega)
        (by omega)]
      have hn : k - page = (k - (page + 1) + 1) := by omega
      rw [hn, pageConcat_succ_items pages page (k - (page + 1)) (x :: xs) hp,
        List.append_assoc]

set_option maxRecDepth 8000 in
/-- C3: both pagination loops terminate only on the first empty page —
never merely because a page was short — returning the concatenation of all
pages before it (one request per page, the empty one included); in
particular the mock sequence `[200 items, 30 items, 0 items]` yields exactly
230 items. -/
theorem pagination_stops_on_first_empty {α : Type} (pages : Nat → PageResponse α)
    (k : Nat) (h1 : 1 ≤ k) (hempty : pages k = .items [])
    (hfull : ∀ p, 1 ≤ p → p < k → ∃ x xs, pages p = .items (x :: xs)) :
    (k ≤ 500 → fetchAllActivities pages = (.ok (pageConcat pages 1 (k - 1)), k)) ∧
    (k ≤ 50 → fetchSegmentEfforts pages = (.ok (pageConcat pages 1 (k - 1)), k)) ∧
    (fetchAllActivities (fun p =>
        if p = 1 then PageResponse.items (List.replicate 200 (0 : Nat))
        else if p = 2 then .items (List.replicate 30 0) else .items [])).1 =
      .ok (List.replicate 200 (0 : Nat) ++ List.replicate 30 0) ∧
    (List.replicate 200 (0 : Nat) ++ List.replicate 30 0).length = 230 := by
  refine ⟨?_, ?_, rfl, by simp⟩
  · intro hk
    have h := fetchAllGo_stops pages k hk hempty hfull 501 1 [] rfl le_rfl h1
    rw [List.nil_append] at h
    have hc : k - 1 + 1 = k := by omega
    rw [hc] at h
    exact h
  · intro hk
    have h := fetchSegmentEffortsGo_stops pages k hk hempty hfull 51 1 [] rfl le_rfl h1
    rw [List.nil_append] at h
    have hc : k - 1 + 1 = k := by omega
    rw [hc] at h
    exact h

/-- C3 (witness): the `[200, 30, 0]` mock run through the theorem — three
requests, 230 items returned. -/
theorem pagination_stops_on_first_empty_witness :
    fetchAllActivities (fun p =>
        if p = 1 then PageResponse.items (List.replicate 200 (0 : Nat))
        else if p = 2 then .items (List.replicate 30 0) else .items []) =
      (.ok (pageConcat (fun p =>
        if p = 1 then PageResponse.items (List.replicate 200 (0 : Nat))
        else if p = 2 then .items (List.replicate 30 0) else .items []) 1 2), 3) :=
  (pagination_stops_on_first_empty (fun p =>
      if p = 1 then PageResponse.items (List.replicate 200 (0 : Nat))
      else if p = 2 then .items (List.replicate 30 0) else .items [])
    3 (by omega) rfl
    (fun p hp1 hp3 => by
      have : p = 1 ∨ p = 2 := by omega
      rcases this with rfl | rfl
      · exact ⟨0, List.replicate 199 0, rfl⟩
      · exact ⟨0, List.replicate 29 0, rfl⟩)).1 (by omega)

/-- C6 (counterexample): on the segment-effort path a non-list page response
does not abort with a DataError — the items accumulated so far are returned
successfully (page 1 had one item; the non-list page 2 ends the loop). -/
theorem fetchSegmentEfforts_nonList_returns_accumulated :
    fetchSegmentEfforts
        (fun p => if p = 1 then PageResponse.items [(0 : Nat)] else .nonList) =
      (.ok [(0 : Nat)], 2) := rfl

/-- C6 (amended): a page response that is not a list aborts the
activity-list fetch with the `DataError` (surfaced verbatim), but on the
segment-efforts path it only ends pagination with a logged warning and the
items accumulated so far are returned. -/
theorem nonList_response_divergence {α : Type} (pages : Nat → PageResponse α)
    (k : Nat) (h1 : 1 ≤ k) (hnl : pages k = .nonList)
    (hfull : ∀ p, 1 ≤ p → p < k → ∃ x xs, pages p = .items (x :: xs)) :
    (k ≤ 500 →
      fetchAllActivities pages = (.error "Invalid API response format.", k)) ∧
    (k ≤ 50 → fetchSegmentEfforts pages = (.ok (pageConcat pages 1 (k - 1)), k)) := by
  constructor
  · intro hk
    have h := fetchAllGo_nonList pages k hk hnl hfull 501 1 [] rfl le_rfl h1
    have hc : k - 1 + 1 = k := by omega
    rw [hc] at h
    exact h
  · intro hk
    have h := fetchSegmentEffortsGo_nonList pages k hk hnl hfull 51 1 [] rfl le_rfl h1
    rw [List.nil_append] at h
    have hc : k - 1 + 1 = k := by omega
    rw [hc] at h
    exact h

/-- C6 (witness): the two-page mock (one item, then a non-list response)
through the amended theorem, on both paths. -/
theorem nonList_response_divergence_witness :
    fetchAllActivities
        (fun p => if p = 1 then PageResponse.items [(0 : Nat)] else .nonList) =
      (.error "Invalid API response format.", 2) ∧
    fetchSegmentEfforts
        (fun p => if p = 1 then PageResponse.items [(0 : Nat)] else .nonList) =
      (.ok (pageConcat
        (fun p => if p = 1 then PageResponse.items [(0 : Nat)] else .nonList) 1 1), 2) := by
  have h := nonList_response_divergence
    (fun p => if p = 1 then PageResponse.items [(0 : Nat)] else .nonList)
    2 (by omega) rfl
    (fun p hp1 hp2 => by
      have : p = 1 := by omega
      subst this
      exact ⟨0, [], rfl⟩)
  exact ⟨h.1 (by omega), h.2 (by omega)⟩

/-- C9: pagination never issues more requests than the page ceiling — 500
for the activity history, 50 for the segment-effort history — and when every
page is full and non-empty both fetchers still terminate, returning exactly
the pages accumulated up to their ceilings with exactly the ceiling's worth
of requests. -/
theorem pagination_request_ceiling {α : Type} (pages : Nat → PageResponse α) :
    (fetchAllActivities pages).2 ≤ 500 ∧
    (fetchSegmentEfforts pages).2 ≤ 50 ∧
    ((∀ p, 1 ≤ p → ∃ x xs, pages p = .items (x :: xs)) →
      fetchAllActivities pages = (.ok (pageConcat pages 1 500), 500) ∧
      fetchSegmentEfforts pages = (.ok (pageConcat pages 1 50), 50)) := by
  refine ⟨?_, ?_, ?_⟩
  · exact fetchAllGo_count_le pages 501 1 [] le_rfl (by omega)
  · exact fetchSegmentEffortsGo_count_le pages 51 1 [] le_rfl (by omega)
  · intro hfull
    constructor
    · have h := fetchAllGo_full pages hfull 501 1 [] rfl le_rfl (by omega)
      rw [List.nil_append] at h
      exact h
    · have h := fetchSegmentEffortsGo_full pages hfull 51 1 [] rfl le_rfl (by omega)
      rw [List.nil_append] at h
      exact h

/-- C9 (witness): a remote that always returns one item per page — both
fetchers stop at their ceilings with exactly 500 and 50 requests. -/
theorem pagination_request_ceiling_witness :
    fetchAllActivities (fun _ => PageResponse.items [(0 : Nat)]) =
      (.ok (pageConcat (fun _ => PageResponse.items [(0 : Nat)]) 1 500), 500) ∧
    fetchSegmentEfforts (fun _ => PageResponse.items [(0 : Nat)]) =
      (.ok (pageConcat (fun _ => PageResponse.items [(0 : Nat)]) 1 50), 50) :=
  (pagination_request_ceiling (fun _ => PageResponse.items [(0 : Nat)])).2.2
    fun _ _ => ⟨0, [], rfl⟩

/-! ## Claim C1 — SyncCoordinator -/

/-- C1 (counterexample): `handleSync` wipes the store *before* fetching, so
a fetch failure after the wipe leaves the store empty — the previously
stored activity is gone even though the sync failed.  Connected state, valid
token, network error on the first page. -/
theorem handleSync_wipes_on_fetch_failure :
    handleSync [⟨1, "old", 1, 1, "Run", 0, none, none⟩]
        ⟨"cid", "cs", "tok", "rt", 0⟩ 1000 none (fun _ => .netError "network down")
        true =
      (.err "network down", []) ∧
    ([⟨1, "old", 1, 1, "Run", 0, none, none⟩] : List Activity) ≠ [] := by
  constructor
  · rfl
  · simp

/-- C1 (amended): a failure in token resolution (or a missing token) leaves
the stored activity set untouched; once the wipe has happened, a fetch or
persist failure leaves the store empty; on success the store holds exactly
the fetched list.  The store is never left with a partial mix — it is always
the original set, empty, or the full fetched list. -/
theorem handleSync_failure_states (db0 : List Activity) (s : AuthState) (now : Int)
    (refreshResp : Option AuthResponse) (pages : Nat → PageResponse Activity)
    (saveOk : Bool) :
    ((handleSync db0 s now refreshResp pages saveOk).2 = db0 ∨
     (handleSync db0 s now refreshResp pages saveOk).2 = [] ∨
     ∃ acts, (fetchAllActivities pages).1 = .ok acts ∧
       handleSync db0 s now refreshResp pages saveOk = (.ok acts, acts)) ∧
    (∀ e, (if s.refreshToken ≠ "" ∧ s.clientId ≠ "" then
        (getValidToken s now refreshResp).result
      else .ok s.accessToken) = .error e →
      handleSync db0 s now refreshResp pages saveOk = (.err e, db0)) ∧
    (∀ tok e, (if s.refreshToken ≠ "" ∧ s.clientId ≠ "" then
        (getValidToken s now refreshResp).result
      else .ok s.accessToken) = .ok tok → tok ≠ "" →
      (fetchAllActivities pages).1 = .error e →
      handleSync db0 s now refreshResp pages saveOk = (.err e, [])) := by
  unfold handleSync
  rcases htok : (if s.refreshToken ≠ "" ∧ s.clientId ≠ "" then
      (getValidToken s now refreshResp).result
    else .ok s.accessToken) with e | tok <;> dsimp only
  · refine ⟨Or.inl rfl, ?_, ?_⟩
    · intro e2 he2
      cases he2
      rfl
    · intro tok e2 htok2 _ _
      cases htok2
  · by_cases htokE : tok = ""
    · rw [if_pos htokE]
      refine ⟨Or.inl rfl, ?_, ?_⟩
      · intro e2 he2
        cases he2
      · intro tok2 e2 htok2 hne _
        cases htok2
        exact absurd htokE hne
    · rw [if_neg htokE]
      rcases hf : (fetchAllActivities pages).1 with e2 | acts <;> dsimp only
      · refine ⟨Or.inr (Or.inl rfl), ?_, ?_⟩
        · intro e3 he3
          cases he3
        · intro tok2 e3 htok2 _ hf2
          cases htok2
          cases hf2
          rfl
      · cases saveOk
        · rw [if_neg Bool.false_ne_true]
          refine ⟨Or.inr (Or.inl rfl), ?_, ?_⟩
          · intro e3 he3
            cases he3
          · intro tok2 e3 htok2 _ hf2
            cases htok2
            cases hf2
        · rw [if_pos rfl]
          refine ⟨Or.inr (Or.inr ⟨acts, rfl, rfl⟩), ?_, ?_⟩
          · intro e3 he3
            cases he3
          · intro tok2 e3 htok2 _ hf2
            cases htok2
            cases hf2

/-- C1 (witness): a connected state whose token refresh fails — the sync
aborts at the token step and the stored activity is untouched. -/
theorem handleSync_failure_states_witness :
    handleSync [⟨1, "old", 1, 1, "Run", 0, none, none⟩]
        ⟨"cid", "cs", "tok", "rt", 30⟩ 1000 none (fun _ => .items []) true =
      (.err "Token refresh failed. Please reconnect.",
        [⟨1, "old", 1, 1, "Run", 0, none, none⟩]) :=
  (handleSync_failure_states [⟨1, "old", 1, 1, "Run", 0, none, none⟩]
    ⟨"cid", "cs", "tok", "rt", 30⟩ 1000 none (fun _ => .items []) true).2.1
    "Token refresh failed. Please reconnect." rfl

end ActivityTrending
